import Mathlib

/-!
# A shallow embedding of `generateSub2Gif.py`

The program converts a video into a subtitled animated GIF.  Its own logic is
the SRT timestamp formatter `srt_timestamp`, the word-by-word cue synthesis and
serialization in `generate_word_by_word_srt`, the output-path derivation in
`process_video`, and the fail-fast sequencing of the three external `ffmpeg`
invocations.  Python floats are modelled as rationals (`ℚ`), with Python's
`int`, `%`, `//` and `round` made explicit; strings are Lean `String`s.
-/

namespace SubGif

/-- Python `int(x)` on a number: truncation toward zero. -/
def pyInt (q : ℚ) : ℤ := if q < 0 then ⌈q⌉ else ⌊q⌋

/-- Python `x % m` on floats (the result takes the sign of `m`):
`x - m * ⌊x / m⌋`. -/
def pyMod (x m : ℚ) : ℚ := x - m * (⌊x / m⌋ : ℤ)

/-- Python `x // m` on floats: `⌊x / m⌋`, still a float. -/
def pyFloorDiv (x m : ℚ) : ℚ := (⌊x / m⌋ : ℤ)

/-- Python 3 `round(x)` to an integer: round half to even. -/
def roundHalfEven (q : ℚ) : ℤ :=
  if q - ⌊q⌋ < 1/2 then ⌊q⌋
  else if 1/2 < q - ⌊q⌋ then ⌊q⌋ + 1
  else if ⌊q⌋ % 2 = 0 then ⌊q⌋ else ⌊q⌋ + 1

/-- The character of the decimal digit `n < 10`. -/
def digitChar (n : Nat) : Char := Char.ofNat (48 + n)

/-- Decimal digits of `n`, most significant first, prepended to `acc`.
`fuel` bounds the recursion; `fuel = n` suffices because `n / 10 < n` for
positive `n`. -/
def natDigits : Nat → Nat → List Char → List Char
  | 0, _, acc => acc
  | fuel + 1, n, acc =>
    if n = 0 then acc else natDigits fuel (n / 10) (digitChar (n % 10) :: acc)

/-- Decimal rendering of a natural number, as Python `str` prints one. -/
def natRepr (n : Nat) : String := if n = 0 then "0" else ⟨natDigits n n []⟩

/-- Left-pad with `'0'` to width `w`. -/
def zfill (w : Nat) (s : String) : String :=
  ⟨List.replicate (w - s.data.length) '0' ++ s.data⟩

/-- Python `f"{i:0wd}"` on an integer: an optional sign, then digits
zero-padded so the whole rendering has width `w`. -/
def pyFormatInt (w : Nat) (i : ℤ) : String :=
  if i < 0 then "-" ++ zfill (w - 1) (natRepr (-i).toNat) else zfill w (natRepr i.toNat)

/-- `hours = int(seconds // 3600)` (source line 17). -/
def srtHours (seconds : ℚ) : ℤ := pyInt (pyFloorDiv seconds 3600)

/-- `minutes = int((seconds % 3600) // 60)` (source line 18). -/
def srtMinutes (seconds : ℚ) : ℤ := pyInt (pyFloorDiv (pyMod seconds 3600) 60)

/-- `secs = int(seconds % 60)` (source line 19). -/
def srtSecs (seconds : ℚ) : ℤ := pyInt (pyMod seconds 60)

/-- `millis = int(round((seconds - int(seconds)) * 1000))` (source line 20).
The product is taken exactly; the program rounds it to a double before
`round`, so concrete inputs are evaluated only where the two agree. -/
def srtMillis (seconds : ℚ) : ℤ := roundHalfEven ((seconds - (pyInt seconds : ℚ)) * 1000)

/-- `srt_timestamp` (source lines 7–21):
`f"{hours:02d}:{minutes:02d}:{secs:02d},{millis:03d}"`. -/
def srt_timestamp (seconds : ℚ) : String :=
  pyFormatInt 2 (srtHours seconds) ++ ":" ++ pyFormatInt 2 (srtMinutes seconds) ++ ":" ++
    pyFormatInt 2 (srtSecs seconds) ++ "," ++ pyFormatInt 3 (srtMillis seconds)

/-- The whitespace characters Python's `str.split()` / `str.strip()` treat as
separators (the ASCII ones: space, tab, newline, carriage return, vertical tab,
form feed). -/
def pyIsSpace (c : Char) : Bool :=
  c == ' ' || c == '\t' || c == '\n' || c == '\r' || c == Char.ofNat 11 || c == Char.ofNat 12

/-- Splitting a character list on runs of whitespace; `acc` holds the current
word reversed. -/
def splitAux : List Char → List Char → List (List Char)
  | [], acc => if acc.isEmpty then [] else [acc.reverse]
  | c :: cs, acc =>
    if pyIsSpace c then
      if acc.isEmpty then splitAux cs [] else acc.reverse :: splitAux cs []
    else splitAux cs (c :: acc)

/-- Python `str.split()` with no argument: maximal runs of non-whitespace, no
empty words. -/
def pySplit (s : String) : List String := (splitAux s.data []).map List.asString

/-- Drop leading whitespace from a character list. -/
def dropSpaces : List Char → List Char
  | [] => []
  | c :: cs => if pyIsSpace c then dropSpaces cs else c :: cs

/-- Python `str.strip()`: drop leading and trailing whitespace. -/
def pyStrip (s : String) : String :=
  ((dropSpaces (dropSpaces s.data).reverse).reverse).asString

/-- One entry of `transcription_result["segments"]`, restricted to the three
fields `generate_word_by_word_srt` reads. -/
structure Segment where
  start : ℚ
  «end» : ℚ
  text : String

/-- One SRT cue: 1-based index, time range, displayed word. -/
structure Cue where
  index : Nat
  start : ℚ
  stop : ℚ
  word : String

/-- The body of the `for segment in ...` loop (source lines 65–88) for one
segment, with the running `cue_index`: strip and split the text, skip the
segment if no words remain, otherwise divide the duration evenly and emit one
cue per enumerated word.  The cue arithmetic is the exact-rational
idealization of the program's doubles; `segmentCuesFloat` below models the
per-operation rounding. -/
def segmentCues (cue_index : Nat) (seg : Segment) : List Cue :=
  let words := pySplit (pyStrip seg.text)
  if words.isEmpty then []
  else
    let word_duration := (seg.«end» - seg.start) / (words.length : ℚ)
    words.enum.map fun iw =>
      { index := cue_index + iw.1
        start := seg.start + (iw.1 : ℚ) * word_duration
        stop := seg.start + ((iw.1 : ℚ) + 1) * word_duration
        word := iw.2 }

/-- The loop over all segments, threading `cue_index` (it advances by one per
emitted cue, never at a skipped segment). -/
def cuesFrom (cue_index : Nat) : List Segment → List Cue
  | [] => []
  | seg :: rest =>
    segmentCues cue_index seg ++
      cuesFrom (cue_index + (segmentCues cue_index seg).length) rest

/-- All cues of a run; `cue_index` starts at 1 (source line 63). -/
def allCues (segs : List Segment) : List Cue := cuesFrom 1 segs

/-- The four lines appended to `srt_lines` per cue (source lines 84–87):
index, time range, word, blank separator. -/
def cueLines (c : Cue) : List String :=
  [natRepr c.index, srt_timestamp c.start ++ " --> " ++ srt_timestamp c.stop, c.word, ""]

/-- The full `srt_lines` list built by the loop. -/
def srtLines (segs : List Segment) : List String := (allCues segs).flatMap cueLines

/-- The file content `generate_word_by_word_srt` writes:
`"\n".join(srt_lines)` (source line 91). -/
def srtContent (segs : List Segment) : String :=
  String.intercalate "\n" (srtLines segs)

/-- Rounding a positive rational to the nearest IEEE binary64 value
(53-bit significand, ties to even); exponent range is unbounded, so overflow
and subnormals — irrelevant at the magnitudes evaluated here — are not
modelled. -/
def flPos (q : ℚ) : ℚ :=
  (roundHalfEven (q * 2 ^ ((52 : ℤ) - Int.log 2 q)) : ℚ) / 2 ^ ((52 : ℤ) - Int.log 2 q)

/-- Rounding a rational to the nearest IEEE binary64 value: the result of one
double-precision floating-point operation whose exact value is `q`. -/
def fl (q : ℚ) : ℚ :=
  if q = 0 then 0 else if q < 0 then -flPos (-q) else flPos q

/-- The loop body of `generate_word_by_word_srt` (source lines 65–88) with the
program's double-precision arithmetic made explicit: every arithmetic result
is rounded by `fl`, as IEEE doubles round each operation.  `segmentCues` is
the exact-rational idealization of this. -/
def segmentCuesFloat (cue_index : Nat) (seg : Segment) : List Cue :=
  let words := pySplit (pyStrip seg.text)
  if words.isEmpty then []
  else
    let segment_duration := fl (seg.«end» - seg.start)
    let word_duration := fl (segment_duration / (words.length : ℚ))
    words.enum.map fun iw =>
      { index := cue_index + iw.1
        start := fl (seg.start + fl ((iw.1 : ℚ) * word_duration))
        stop := fl (seg.start + fl (((iw.1 : ℚ) + 1) * word_duration))
        word := iw.2 }

/-- The `word_duration` of `segmentCuesFloat`: the double-rounded
`(end - start) / n` of source line 75. -/
def wordDurationFloat (seg : Segment) : ℚ :=
  fl (fl (seg.«end» - seg.start) / ((pySplit (pyStrip seg.text)).length : ℚ))

/-- A Whisper segment with the extra fields the transcriber returns but the
SRT generator never reads. -/
structure RawSegment where
  id : ℤ
  start : ℚ
  «end» : ℚ
  text : String
  avg_logprob : ℚ
  no_speech_prob : ℚ

/-- A Whisper transcription result; `generate_word_by_word_srt` reads only
`segments`, and of each segment only `start`, `end` and `text`. -/
structure TranscriptionResult where
  text : String
  language : String
  segments : List RawSegment

/-- The projection the loop performs on each raw segment. -/
def RawSegment.toSegment (r : RawSegment) : Segment := ⟨r.start, r.«end», r.text⟩

/-- `generate_word_by_word_srt` (source lines 53–92) as a function from the
transcription result to the written file content. -/
def generate_word_by_word_srt (r : TranscriptionResult) : String :=
  srtContent (r.segments.map RawSegment.toSegment)

/-- The target file's content after `open(srt_file_path, "w")` and
`f.write(...)`: mode `"w"` truncates, so the previous content is discarded
whatever it was. -/
def writtenSrtContent (oldContent : String) (r : TranscriptionResult) : String :=
  generate_word_by_word_srt r

/-- `str.rfind` helper: highest index of `c` seen so far. -/
def rfindAux (c : Char) : List Char → Nat → ℤ → ℤ
  | [], _, best => best
  | x :: xs, i, best => rfindAux c xs (i + 1) (if x == c then (i : ℤ) else best)

/-- Python `s.rfind(c)`: highest index of `c` in `s`, or `-1` if absent. -/
def pyRfind (s : String) (c : Char) : ℤ := rfindAux c s.data 0 (-1)

/-- `os.path.splitext(p)[0]` on POSIX: cut at the last dot, provided it lies
after the last path separator and after at least one non-dot character of the
final component (so dotfiles are not split). -/
def splitextBase (p : String) : String :=
  let sepIndex := pyRfind p '/'
  let dotIndex := pyRfind p '.'
  if decide (sepIndex < dotIndex) &&
      (List.range p.data.length).any
        (fun i => decide (sepIndex < (i : ℤ)) && decide ((i : ℤ) < dotIndex) &&
          (p.data.getD i '.' != '.')) then
    (p.data.take dotIndex.toNat).asString
  else p

/-- The four output paths `process_video` derives (source lines 178–182). -/
structure OutputPaths where
  srt_file_path : String
  output_video_path : String
  palette_file_path : String
  gif_file_path : String
deriving DecidableEq

/-- Path derivation in `process_video`: `base_name = os.path.splitext(...)[0]`
and the four fixed suffixes. -/
def process_video_paths (input_video : String) : OutputPaths :=
  let base_name := splitextBase input_video
  { srt_file_path := base_name ++ ".srt"
    output_video_path := base_name ++ "_output.mp4"
    palette_file_path := base_name ++ "_palette.png"
    gif_file_path := base_name ++ ".gif" }

/-- The three external `ffmpeg` invocations of the pipeline. -/
inductive ExtStep
  | burnSubtitles
  | generatePalette
  | convertToGif
deriving DecidableEq

/-- Exit statuses the external tool would return for each step of a run. -/
structure ExtEnv where
  burnExit : Nat
  paletteExit : Nat
  gifExit : Nat

/-- `subprocess.run(command, check=True)`: the invocation is recorded; a
non-zero exit status raises `CalledProcessError`, modelled as `Except.error`
carrying the status. -/
def runChecked (log : List ExtStep) (s : ExtStep) (code : Nat) :
    List ExtStep × Except Nat Unit :=
  (log ++ [s], if code = 0 then Except.ok () else Except.error code)

/-- The tail of `process_video` after the SRT file is written (source lines
187–189): `burn_subtitles`, then `generate_palette`, then `convert_to_gif`.
An error aborts the remaining steps; uncaught, it terminates the process with
a non-zero status. -/
def process_video_run (env : ExtEnv) : List ExtStep × Except Nat Unit :=
  match runChecked [] ExtStep.burnSubtitles env.burnExit with
  | (log, Except.error e) => (log, Except.error e)
  | (log, Except.ok ()) =>
    match runChecked log ExtStep.generatePalette env.paletteExit with
    | (log2, Except.error e) => (log2, Except.error e)
    | (log2, Except.ok ()) => runChecked log2 ExtStep.convertToGif env.gifExit

theorem srt_timestamp_rw (q : ℚ) (h mi s mil : ℤ)
    (hh : srtHours q = h) (hm : srtMinutes q = mi)
    (hs : srtSecs q = s) (hl : srtMillis q = mil) :
    srt_timestamp q =
      pyFormatInt 2 h ++ ":" ++ pyFormatInt 2 mi ++ ":" ++
        pyFormatInt 2 s ++ "," ++ pyFormatInt 3 mil := by
  rw [srt_timestamp, hh, hm, hs, hl]

theorem srt_timestamp_zero : srt_timestamp 0 = "00:00:00,000" := by
  rw [srt_timestamp_rw 0 0 0 0 0 (by norm_num [srtHours, pyFloorDiv, pyInt])
    (by norm_num [srtMinutes, pyFloorDiv, pyMod, pyInt])
    (by norm_num [srtSecs, pyMod, pyInt])
    (by norm_num [srtMillis, pyInt, roundHalfEven])]
  decide

theorem srt_timestamp_one : srt_timestamp 1 = "00:00:01,000" := by
  rw [srt_timestamp_rw 1 0 0 1 0 (by norm_num [srtHours, pyFloorDiv, pyInt])
    (by norm_num [srtMinutes, pyFloorDiv, pyMod, pyInt])
    (by norm_num [srtSecs, pyMod, pyInt])
    (by norm_num [srtMillis, pyInt, roundHalfEven])]
  decide

theorem srt_timestamp_threeHalves : srt_timestamp (3/2) = "00:00:01,500" := by
  rw [srt_timestamp_rw (3/2) 0 0 1 500 (by norm_num [srtHours, pyFloorDiv, pyInt])
    (by norm_num [srtMinutes, pyFloorDiv, pyMod, pyInt])
    (by norm_num [srtSecs, pyMod, pyInt])
    (by norm_num [srtMillis, pyInt, roundHalfEven])]
  decide

theorem srt_timestamp_two : srt_timestamp 2 = "00:00:02,000" := by
  rw [srt_timestamp_rw 2 0 0 2 0 (by norm_num [srtHours, pyFloorDiv, pyInt])
    (by norm_num [srtMinutes, pyFloorDiv, pyMod, pyInt])
    (by norm_num [srtSecs, pyMod, pyInt])
    (by norm_num [srtMillis, pyInt, roundHalfEven])]
  decide

theorem srt_timestamp_long : srt_timestamp (3661.25 : ℚ) = "01:01:01,250" := by
  rw [srt_timestamp_rw (3661.25 : ℚ) 1 1 1 250 (by norm_num [srtHours, pyFloorDiv, pyInt])
    (by norm_num [srtMinutes, pyFloorDiv, pyMod, pyInt])
    (by norm_num [srtSecs, pyMod, pyInt])
    (by norm_num [srtMillis, pyInt, roundHalfEven])]
  decide

theorem segmentCues_helloWorld :
    segmentCues 1 { start := 1, «end» := 2, text := "hello world" } =
      [{ index := 1, start := 1, stop := 3/2, word := "hello" },
       { index := 2, start := 3/2, stop := 2, word := "world" }] := by
  have hw : pySplit (pyStrip "hello world") = ["hello", "world"] := by decide
  have he : (["hello", "world"] : List String).enum = [(0, "hello"), (1, "world")] := by decide
  simp only [segmentCues, hw, he, List.isEmpty_cons, Bool.false_eq_true, if_false,
    List.length_cons, List.length_nil, List.map_cons, List.map_nil, List.cons.injEq,
    Cue.mk.injEq, and_true]
  norm_num

theorem srtContent_helloWorld :
    srtContent [{ start := 1, «end» := 2, text := "hello world" }] =
      "1\n00:00:01,000 --> 00:00:01,500\nhello\n\n2\n00:00:01,500 --> 00:00:02,000\nworld\n" := by
  rw [srtContent, srtLines, allCues]
  rw [show cuesFrom 1 [{ start := 1, «end» := 2, text := "hello world" }] =
    segmentCues 1 { start := 1, «end» := 2, text := "hello world" } from by
      rw [cuesFrom, cuesFrom, List.append_nil]]
  rw [segmentCues_helloWorld]
  simp only [List.flatMap_cons, List.flatMap_nil, cueLines, List.append_nil]
  rw [srt_timestamp_one, srt_timestamp_threeHalves, srt_timestamp_two]
  decide


/-- C1, counterexample: for the single segment `(1.0, 2.0, "hello world")` the
emitted file content is not the claimed string ending in two newlines —
`"\n".join` places nothing after the final blank element, so the content ends
in a single newline. -/
theorem C1_counterexample :
    srtContent [{ start := 1, «end» := 2, text := "hello world" }] ≠
      "1\n00:00:01,000 --> 00:00:01,500\nhello\n\n2\n00:00:01,500 --> 00:00:02,000\nworld\n\n" := by
  rw [srtContent_helloWorld]
  decide

/-- C1, amended: for the single segment `(1.0, 2.0, "hello world")` the emitted
file content is exactly
`"1\n00:00:01,000 --> 00:00:01,500\nhello\n\n2\n00:00:01,500 --> 00:00:02,000\nworld\n"`,
with a single trailing newline after the final word's blank separator line. -/
theorem C1_theorem :
    srtContent [{ start := 1, «end» := 2, text := "hello world" }] =
      "1\n00:00:01,000 --> 00:00:01,500\nhello\n\n2\n00:00:01,500 --> 00:00:02,000\nworld\n" :=
  srtContent_helloWorld

/-- C3: the timestamp formatter returns `"00:00:00,000"` on input `0.0` and
`"01:01:01,250"` on input `3661.25`. -/
theorem C3_theorem :
    srt_timestamp 0 = "00:00:00,000" ∧ srt_timestamp (3661.25 : ℚ) = "01:01:01,250" :=
  ⟨srt_timestamp_zero, srt_timestamp_long⟩


/-- The `word_duration` a segment's loop iteration computes (source line 75):
the segment duration divided evenly among its words, in the exact-rational
idealization (`wordDurationFloat` is the double-rounded version). -/
def wordDuration (seg : Segment) : ℚ :=
  (seg.«end» - seg.start) / ((pySplit (pyStrip seg.text)).length : ℚ)

theorem segmentCues_length (idx : Nat) (seg : Segment) :
    (segmentCues idx seg).length = (pySplit (pyStrip seg.text)).length := by
  rcases hl : pySplit (pyStrip seg.text) with _ | ⟨w, ws⟩
  · simp [segmentCues, hl]
  · simp [segmentCues, hl, List.enum_length]

theorem segmentCues_eq_map (idx : Nat) (seg : Segment)
    (h : (pySplit (pyStrip seg.text)).isEmpty = false) :
    segmentCues idx seg =
      (pySplit (pyStrip seg.text)).enum.map fun iw =>
        { index := idx + iw.1
          start := seg.start + (iw.1 : ℚ) * wordDuration seg
          stop := seg.start + ((iw.1 : ℚ) + 1) * wordDuration seg
          word := iw.2 } := by
  simp [segmentCues, h, wordDuration]

theorem segmentCues_get (idx : Nat) (seg : Segment)
    (i : Fin (segmentCues idx seg).length) :
    (segmentCues idx seg).get i =
      { index := idx + i.1
        start := seg.start + (i.1 : ℚ) * wordDuration seg
        stop := seg.start + ((i.1 : ℚ) + 1) * wordDuration seg
        word := (pySplit (pyStrip seg.text)).get (i.cast (segmentCues_length idx seg)) } := by
  have hlen : (pySplit (pyStrip seg.text)).length ≠ 0 :=
    Nat.pos_iff_ne_zero.mp (Nat.lt_of_le_of_lt (Nat.zero_le _)
      (lt_of_lt_of_eq i.2 (segmentCues_length idx seg)))
  have hne : (pySplit (pyStrip seg.text)).isEmpty = false := by
    rw [← Bool.not_eq_true, List.isEmpty_iff_length_eq_zero]
    exact hlen
  have h' := segmentCues_eq_map idx seg hne
  rw [List.get_eq_getElem]
  simp only [h', List.getElem_map, List.getElem_enum]
  rfl

theorem segmentCues_abc :
    segmentCues 1 { start := 0, «end» := 3, text := "a b c" } =
      [{ index := 1, start := 0, stop := 1, word := "a" },
       { index := 2, start := 1, stop := 2, word := "b" },
       { index := 3, start := 2, stop := 3, word := "c" }] := by
  have hw : pySplit (pyStrip "a b c") = ["a", "b", "c"] := by decide
  have he : (["a", "b", "c"] : List String).enum = [(0, "a"), (1, "b"), (2, "c")] := by decide
  simp only [segmentCues, hw, he, List.isEmpty_cons, Bool.false_eq_true, if_false,
    List.length_cons, List.length_nil, List.map_cons, List.map_nil, List.cons.injEq,
    Cue.mk.injEq, and_true]
  norm_num

/-- C4: in every segment with words, word `i` (0-based) is assigned the
interval `[start + i*d, start + (i+1)*d)` where `d = (end - start) / n` is the
evenly divided duration; in particular the segment `(0.0, 3.0, "a b c")`
produces exactly three cues carrying `"a"`, `"b"`, `"c"` with intervals
`[0,1)`, `[1,2)`, `[2,3)`. -/
theorem C4_theorem :
    (∀ (idx : Nat) (seg : Segment) (i : Fin (segmentCues idx seg).length),
        ((segmentCues idx seg).get i).start = seg.start + (i.1 : ℚ) * wordDuration seg ∧
        ((segmentCues idx seg).get i).stop =
          seg.start + ((i.1 : ℚ) + 1) * wordDuration seg ∧
        ((segmentCues idx seg).get i).word =
          (pySplit (pyStrip seg.text)).get (i.cast (segmentCues_length idx seg))) ∧
    segmentCues 1 { start := 0, «end» := 3, text := "a b c" } =
      [{ index := 1, start := 0, stop := 1, word := "a" },
       { index := 2, start := 1, stop := 2, word := "b" },
       { index := 3, start := 2, stop := 3, word := "c" }] := by
  refine ⟨fun idx seg i => ?_, segmentCues_abc⟩
  rw [segmentCues_get]
  exact ⟨rfl, rfl, rfl⟩

/-- Witness for C4: the first cue of the `(0, 3, "a b c")` segment. -/
theorem C4_witness :
    ((segmentCues 1 { start := 0, «end» := 3, text := "a b c" }).get
        ⟨0, by rw [segmentCues_length]; decide⟩).start =
      ({ start := 0, «end» := 3, text := "a b c" } : Segment).start +
        ((0 : ℕ) : ℚ) * wordDuration { start := 0, «end» := 3, text := "a b c" } :=
  (C4_theorem.1 1 { start := 0, «end» := 3, text := "a b c" }
    ⟨0, by rw [segmentCues_length]; decide⟩).1


theorem segmentCues_map_index (idx : Nat) (seg : Segment) :
    (segmentCues idx seg).map Cue.index =
      List.range' idx (segmentCues idx seg).length := by
  by_cases h : (pySplit (pyStrip seg.text)).isEmpty = true
  · simp [segmentCues, h]
  · have h' : (pySplit (pyStrip seg.text)).isEmpty = false := by
      rwa [Bool.not_eq_true] at h
    rw [segmentCues_eq_map idx seg h', List.map_map, List.length_map, List.enum_length]
    have hcomp : (Cue.index ∘ fun iw : ℕ × String =>
        ({ index := idx + iw.1, start := seg.start + (iw.1 : ℚ) * wordDuration seg,
           stop := seg.start + ((iw.1 : ℚ) + 1) * wordDuration seg,
           word := iw.2 } : Cue)) = (fun n => idx + n) ∘ Prod.fst := rfl
    rw [hcomp, ← List.map_map, List.enum_map_fst, ← List.range'_eq_map_range]

theorem cuesFrom_map_index (segs : List Segment) : ∀ idx : Nat,
    (cuesFrom idx segs).map Cue.index = List.range' idx (cuesFrom idx segs).length := by
  induction segs with
  | nil =>
    intro idx
    simp [cuesFrom]
  | cons s rest ih =>
    intro idx
    rw [cuesFrom, List.map_append, List.length_append, segmentCues_map_index, ih]
    have happ := List.range'_append idx (segmentCues idx s).length
      (cuesFrom (idx + (segmentCues idx s).length) rest).length 1
    simp only [one_mul] at happ
    rw [happ, Nat.add_comm]

/-- C5: a segment whose stripped text splits to no words contributes zero cues
and does not consume a cue index, and the cue indices across all segments form
the consecutive sequence 1, 2, 3, … (never reset at a segment boundary). -/
theorem C5_theorem (idx : Nat) (seg : Segment) (segs : List Segment)
    (h : pySplit (pyStrip seg.text) = []) :
    segmentCues idx seg = [] ∧
      (allCues segs).map Cue.index = List.range' 1 (allCues segs).length :=
  ⟨by simp [segmentCues, h], by rw [allCues]; exact cuesFrom_map_index segs 1⟩

/-- Witness for C5: a whitespace-only segment, and a three-segment run whose
middle segment is whitespace-only. -/
theorem C5_witness :
    pySplit (pyStrip "   ") = [] ∧
      (segmentCues 5 { start := 0, «end» := 1, text := "   " } = [] ∧
        (allCues [{ start := 0, «end» := 1, text := "x y" },
                  { start := 1, «end» := 2, text := " " },
                  { start := 2, «end» := 3, text := "z" }]).map Cue.index =
          List.range' 1 (allCues [{ start := 0, «end» := 1, text := "x y" },
                  { start := 1, «end» := 2, text := " " },
                  { start := 2, «end» := 3, text := "z" }]).length) :=
  ⟨by decide, C5_theorem 5 { start := 0, «end» := 1, text := "   " }
    [{ start := 0, «end» := 1, text := "x y" },
     { start := 1, «end» := 2, text := " " },
     { start := 2, «end» := 3, text := "z" }] (by decide)⟩

/-- C7: the orchestrator derives the four output paths from the input video
path by replacing its extension: `"clip.mp4"` yields `"clip.srt"`,
`"clip_output.mp4"`, `"clip_palette.png"` and `"clip.gif"`. -/
theorem C7_theorem :
    process_video_paths "clip.mp4" =
      { srt_file_path := "clip.srt", output_video_path := "clip_output.mp4",
        palette_file_path := "clip_palette.png", gif_file_path := "clip.gif" } := by
  decide

/-- C8: when `burn_subtitles`'s external command exits non-zero, the palette
and GIF steps are never invoked and the run ends in the non-zero error. -/
theorem C8_theorem (env : ExtEnv) (h : env.burnExit ≠ 0) :
    (process_video_run env).1 = [ExtStep.burnSubtitles] ∧
      ExtStep.generatePalette ∉ (process_video_run env).1 ∧
      ExtStep.convertToGif ∉ (process_video_run env).1 ∧
      (process_video_run env).2 = Except.error env.burnExit := by
  have hrun : process_video_run env =
      ([ExtStep.burnSubtitles], Except.error env.burnExit) := by
    rw [process_video_run, runChecked]
    simp [h]
  rw [hrun]
  exact ⟨rfl, by simp, by simp, rfl⟩

/-- Witness for C8: the render step exits with status 1. -/
theorem C8_witness :
    ({ burnExit := 1, paletteExit := 0, gifExit := 0 } : ExtEnv).burnExit ≠ 0 ∧
      ((process_video_run { burnExit := 1, paletteExit := 0, gifExit := 0 }).1 =
          [ExtStep.burnSubtitles] ∧
        ExtStep.generatePalette ∉
          (process_video_run { burnExit := 1, paletteExit := 0, gifExit := 0 }).1 ∧
        ExtStep.convertToGif ∉
          (process_video_run { burnExit := 1, paletteExit := 0, gifExit := 0 }).1 ∧
        (process_video_run { burnExit := 1, paletteExit := 0, gifExit := 0 }).2 =
          Except.error ({ burnExit := 1, paletteExit := 0, gifExit := 0 } : ExtEnv).burnExit) :=
  ⟨by decide, C8_theorem { burnExit := 1, paletteExit := 0, gifExit := 0 } (by decide)⟩

theorem map_toSegment_of_agree : ∀ l1 l2 : List RawSegment,
    List.Forall₂
      (fun a b : RawSegment => a.start = b.start ∧ a.«end» = b.«end» ∧ a.text = b.text)
      l1 l2 →
    l1.map RawSegment.toSegment = l2.map RawSegment.toSegment := by
  intro l1 l2 h
  induction h with
  | nil => rfl
  | cons hab htl ih =>
    simp only [List.map_cons, List.cons.injEq]
    refine ⟨?_, ih⟩
    rw [RawSegment.toSegment, RawSegment.toSegment, hab.1, hab.2.1, hab.2.2]

/-- C9: subtitle generation is deterministic and reads only each segment's
`start`, `end` and `text`: transcription results agreeing on those produce
byte-for-byte identical file content. -/
theorem C9_theorem (r1 r2 : TranscriptionResult)
    (h : List.Forall₂
      (fun a b : RawSegment => a.start = b.start ∧ a.«end» = b.«end» ∧ a.text = b.text)
      r1.segments r2.segments) :
    generate_word_by_word_srt r1 = generate_word_by_word_srt r2 :=
  congrArg srtContent (map_toSegment_of_agree r1.segments r2.segments h)

/-- Witness for C9: two transcription results that agree on segment timing and
text but differ in full text, language, id and probability fields. -/
theorem C9_witness :
    List.Forall₂
      (fun a b : RawSegment => a.start = b.start ∧ a.«end» = b.«end» ∧ a.text = b.text)
      [{ id := 0, start := 1, «end» := 2, text := "hi there",
         avg_logprob := 0, no_speech_prob := 0 }]
      [{ id := 7, start := 1, «end» := 2, text := "hi there",
         avg_logprob := -1, no_speech_prob := 1/2 }] ∧
    generate_word_by_word_srt
        { text := "hi there", language := "en",
          segments := [{ id := 0, start := 1, «end» := 2, text := "hi there",
                         avg_logprob := 0, no_speech_prob := 0 }] } =
      generate_word_by_word_srt
        { text := "something else", language := "de",
          segments := [{ id := 7, start := 1, «end» := 2, text := "hi there",
                         avg_logprob := -1, no_speech_prob := 1/2 }] } :=
  ⟨List.Forall₂.cons ⟨rfl, rfl, rfl⟩ List.Forall₂.nil,
    C9_theorem _ _ (List.Forall₂.cons ⟨rfl, rfl, rfl⟩ List.Forall₂.nil)⟩

theorem cuesFrom_nil_of_empty (segs : List Segment) : ∀ idx : Nat,
    (∀ seg ∈ segs, pySplit (pyStrip seg.text) = []) → cuesFrom idx segs = [] := by
  induction segs with
  | nil =>
    intro idx _
    rfl
  | cons s rest ih =>
    intro idx h
    have hs : segmentCues idx s = [] := by
      simp [segmentCues, h s (List.mem_cons_self s rest)]
    rw [cuesFrom, hs]
    simp [ih _ fun seg hm => h seg (List.mem_cons_of_mem s hm)]

/-- C10: when every segment's text strips/splits to nothing (in particular when
the segment list is empty), the generator still writes, and what it writes is
the empty string — the pre-existing file content is discarded by the `"w"`
open mode, leaving a zero-length file. -/
theorem C10_theorem (r : TranscriptionResult) (old : String)
    (h : ∀ seg ∈ r.segments, pySplit (pyStrip seg.text) = []) :
    writtenSrtContent old r = "" := by
  have hall : ∀ seg ∈ r.segments.map RawSegment.toSegment,
      pySplit (pyStrip seg.text) = [] := by
    intro seg hm
    obtain ⟨raw, hraw, rfl⟩ := List.mem_map.mp hm
    exact h raw hraw
  rw [writtenSrtContent, generate_word_by_word_srt, srtContent, srtLines, allCues,
    cuesFrom_nil_of_empty _ 1 hall]
  rfl

/-- Witness for C10: a single whitespace-only segment truncates a file that
previously held `"previous content"`. -/
theorem C10_witness :
    (∀ seg ∈ ({ text := "uh", language := "en",
                segments := [{ id := 0, start := 0, «end» := 1, text := " \t ",
                               avg_logprob := 0, no_speech_prob := 0 }] } :
          TranscriptionResult).segments,
        pySplit (pyStrip seg.text) = []) ∧
      writtenSrtContent "previous content"
        { text := "uh", language := "en",
          segments := [{ id := 0, start := 0, «end» := 1, text := " \t ",
                         avg_logprob := 0, no_speech_prob := 0 }] } = "" :=
  ⟨by decide, C10_theorem _ "previous content" (by decide)⟩


theorem wordDuration_mul_length (seg : Segment)
    (h : pySplit (pyStrip seg.text) ≠ []) :
    ((pySplit (pyStrip seg.text)).length : ℚ) * wordDuration seg =
      seg.«end» - seg.start := by
  have hn0 : ((pySplit (pyStrip seg.text)).length : ℚ) ≠ 0 := by
    exact_mod_cast Nat.pos_iff_ne_zero.mp (List.length_pos.mpr h)
  rw [wordDuration, mul_comm, div_mul_cancel₀ _ hn0]


theorem flPos_eval (q : ℚ) (k m : ℤ) (h1 : (2 : ℚ) ^ k ≤ q)
    (h2 : q < (2 : ℚ) ^ (k + 1))
    (h3 : roundHalfEven (q * 2 ^ ((52 : ℤ) - k)) = m) :
    flPos q = (m : ℚ) / 2 ^ ((52 : ℤ) - k) := by
  have h0 : 0 < q := lt_of_lt_of_le (by positivity) h1
  have hk : Int.log 2 q = k := by
    have ha : k ≤ Int.log 2 q := by
      rw [← Int.zpow_le_iff_le_log (by norm_num) h0]
      exact_mod_cast h1
    have hb : Int.log 2 q < k + 1 := by
      rw [← Int.lt_zpow_iff_log_lt (by norm_num) h0]
      exact_mod_cast h2
    omega
  rw [flPos, hk, h3]

theorem fl_eval (q : ℚ) (k m : ℤ) (h1 : (2 : ℚ) ^ k ≤ q)
    (h2 : q < (2 : ℚ) ^ (k + 1))
    (h3 : roundHalfEven (q * 2 ^ ((52 : ℤ) - k)) = m) :
    fl q = (m : ℚ) / 2 ^ ((52 : ℤ) - k) := by
  have h0 : 0 < q := lt_of_lt_of_le (by positivity) h1
  rw [fl, if_neg (ne_of_gt h0), if_neg (not_lt.mpr h0.le), flPos_eval q k m h1 h2 h3]

theorem fl_one : fl (1 : ℚ) = 1 := by
  rw [fl_eval 1 0 4503599627370496 (by norm_num) (by norm_num)
    (by norm_num [roundHalfEven])]
  norm_num

theorem fl_div49 : fl ((1 : ℚ) / 49) = 5882252574524729 / 288230376151711744 := by
  rw [fl_eval (1/49) (-6) 5882252574524729 (by norm_num) (by norm_num)
    (by norm_num [roundHalfEven])]
  norm_num

theorem fl_mul49 :
    fl ((288230376151711721 : ℚ) / 288230376151711744) =
      9007199254740991 / 9007199254740992 := by
  rw [fl_eval _ (-1) 9007199254740991 (by norm_num) (by norm_num)
    (by norm_num [roundHalfEven])]
  norm_num

theorem fl_fixed53 :
    fl ((9007199254740991 : ℚ) / 9007199254740992) =
      9007199254740991 / 9007199254740992 := by
  rw [fl_eval _ (-1) 9007199254740991 (by norm_num) (by norm_num)
    (by norm_num [roundHalfEven])]
  norm_num

theorem segmentCuesFloat_length (idx : Nat) (seg : Segment) :
    (segmentCuesFloat idx seg).length = (pySplit (pyStrip seg.text)).length := by
  rcases hl : pySplit (pyStrip seg.text) with _ | ⟨w, ws⟩
  · simp [segmentCuesFloat, hl]
  · simp [segmentCuesFloat, hl, List.enum_length]

theorem segmentCuesFloat_eq_map (idx : Nat) (seg : Segment)
    (h : (pySplit (pyStrip seg.text)).isEmpty = false) :
    segmentCuesFloat idx seg =
      (pySplit (pyStrip seg.text)).enum.map fun iw =>
        { index := idx + iw.1
          start := fl (seg.start + fl ((iw.1 : ℚ) * wordDurationFloat seg))
          stop := fl (seg.start + fl (((iw.1 : ℚ) + 1) * wordDurationFloat seg))
          word := iw.2 } := by
  simp [segmentCuesFloat, h, wordDurationFloat]

theorem segmentCuesFloat_get (idx : Nat) (seg : Segment)
    (i : Fin (segmentCuesFloat idx seg).length) :
    (segmentCuesFloat idx seg).get i =
      { index := idx + i.1
        start := fl (seg.start + fl ((i.1 : ℚ) * wordDurationFloat seg))
        stop := fl (seg.start + fl (((i.1 : ℚ) + 1) * wordDurationFloat seg))
        word := (pySplit (pyStrip seg.text)).get
          (i.cast (segmentCuesFloat_length idx seg)) } := by
  have hlen : (pySplit (pyStrip seg.text)).length ≠ 0 :=
    Nat.pos_iff_ne_zero.mp (Nat.lt_of_le_of_lt (Nat.zero_le _)
      (lt_of_lt_of_eq i.2 (segmentCuesFloat_length idx seg)))
  have hne : (pySplit (pyStrip seg.text)).isEmpty = false := by
    rw [← Bool.not_eq_true, List.isEmpty_iff_length_eq_zero]
    exact hlen
  have h' := segmentCuesFloat_eq_map idx seg hne
  rw [List.get_eq_getElem]
  simp only [h', List.getElem_map, List.getElem_enum]
  rfl

theorem wordDurationFloat_49 :
    wordDurationFloat { start := 0, «end» := 1, text := "a a a a a a a a a a a a a a a a a a a a a a a a a a a a a a a a a a a a a a a a a a a a a a a a a" } =
      5882252574524729 / 288230376151711744 := by
  have hw : pySplit (pyStrip "a a a a a a a a a a a a a a a a a a a a a a a a a a a a a a a a a a a a a a a a a a a a a a a a a") = List.replicate 49 "a" := by decide
  rw [wordDurationFloat, hw]
  simp only [List.length_replicate]
  norm_num [fl_one, fl_div49]

/-- C6, counterexample: for the segment `(0.0, 1.0)` with 49 words, the
program's double arithmetic gives `word_duration = fl(1/49)` and the last
cue's end `fl(0 + fl(49 * fl(1/49))) = (2^53 - 1) / 2^53 = 1 - 2^-53`, which
is strictly below `segment.end = 1`; the word intervals therefore do not
union to `[segment.start, segment.end)` as the claim states. -/
theorem C6_counterexample :
    ((segmentCuesFloat 1
          { start := 0, «end» := 1, text := "a a a a a a a a a a a a a a a a a a a a a a a a a a a a a a a a a a a a a a a a a a a a a a a a a" }).getLast?.map Cue.stop =
        some (9007199254740991 / 9007199254740992 : ℚ)) ∧
      (9007199254740991 / 9007199254740992 : ℚ) ≠
        ({ start := 0, «end» := 1, text := "a a a a a a a a a a a a a a a a a a a a a a a a a a a a a a a a a a a a a a a a a a a a a a a a a" } : Segment).«end» := by
  constructor
  · have hlen : (segmentCuesFloat 1
        { start := 0, «end» := 1, text := "a a a a a a a a a a a a a a a a a a a a a a a a a a a a a a a a a a a a a a a a a a a a a a a a a" }).length = 49 := by
      have hw : pySplit (pyStrip "a a a a a a a a a a a a a a a a a a a a a a a a a a a a a a a a a a a a a a a a a a a a a a a a a") = List.replicate 49 "a" := by decide
      rw [segmentCuesFloat_length, hw, List.length_replicate]
    have h48 : 48 < (segmentCuesFloat 1
        { start := 0, «end» := 1, text := "a a a a a a a a a a a a a a a a a a a a a a a a a a a a a a a a a a a a a a a a a a a a a a a a a" }).length := by
      rw [hlen]
      norm_num
    have hlast : (segmentCuesFloat 1
          { start := 0, «end» := 1, text := "a a a a a a a a a a a a a a a a a a a a a a a a a a a a a a a a a a a a a a a a a a a a a a a a a" }).getLast? =
        some ((segmentCuesFloat 1
          { start := 0, «end» := 1, text := "a a a a a a a a a a a a a a a a a a a a a a a a a a a a a a a a a a a a a a a a a a a a a a a a a" }).get ⟨48, h48⟩) := by
      rw [List.getLast?_eq_getElem?]
      simp only [hlen]
      rw [List.getElem?_eq_getElem (by rw [hlen]; norm_num)]
      rfl
    rw [hlast, Option.map_some', segmentCuesFloat_get]
    dsimp only
    rw [wordDurationFloat_49]
    norm_num [fl_mul49, fl_fixed53]
  · norm_num

/-- C6, amended: within a segment with at least one word, the word boundaries
computed in exact rational arithmetic give intervals that are contiguous,
pairwise disjoint, and union to exactly `[start, end)` (first cue starts at
`segment.start`, last cue ends at `segment.end`); under the program's
double-precision evaluation (`segmentCuesFloat`) contiguity still holds —
each cue's end is the very same rounded value as the next cue's start — but
the last cue's end is the rounded `start + n·d`, which can fall short of
`segment.end` (see the 49-word counterexample), so exact equality of the
union with `[segment.start, segment.end)` holds only in the idealization. -/
theorem C6_theorem (idx : Nat) (seg : Segment)
    (h : pySplit (pyStrip seg.text) ≠ []) :
    (∀ j (hj : j + 1 < (segmentCues idx seg).length),
        ((segmentCues idx seg).get ⟨j, Nat.lt_of_succ_lt hj⟩).stop =
          ((segmentCues idx seg).get ⟨j + 1, hj⟩).start) ∧
      ((segmentCues idx seg).Pairwise fun c1 c2 =>
        Disjoint (Set.Ico c1.start c1.stop) (Set.Ico c2.start c2.stop)) ∧
      (⋃ c ∈ segmentCues idx seg, Set.Ico c.start c.stop) =
        Set.Ico seg.start seg.«end» ∧
      (segmentCues idx seg).head?.map Cue.start = some seg.start ∧
      (segmentCues idx seg).getLast?.map Cue.stop = some seg.«end» ∧
      (∀ j (hj : j + 1 < (segmentCuesFloat idx seg).length),
        ((segmentCuesFloat idx seg).get ⟨j, Nat.lt_of_succ_lt hj⟩).stop =
          ((segmentCuesFloat idx seg).get ⟨j + 1, hj⟩).start) := by
  have hn : 0 < (pySplit (pyStrip seg.text)).length := List.length_pos.mpr h
  have hlen : (segmentCues idx seg).length = (pySplit (pyStrip seg.text)).length :=
    segmentCues_length idx seg
  have hnd := wordDuration_mul_length seg h
  refine ⟨?_, ?_, ?_, ?_, ?_, ?_⟩
  · -- contiguity
    intro j hj
    rw [segmentCues_get, segmentCues_get]
    push_cast
    ring_nf
  · -- pairwise disjointness
    rw [List.pairwise_iff_get]
    intro i j hij
    rw [segmentCues_get, segmentCues_get, Set.Ico_disjoint_Ico]
    dsimp only
    have hij' : (i.1 : ℚ) + 1 ≤ (j.1 : ℚ) := by exact_mod_cast Nat.succ_le_of_lt hij
    rcases le_or_lt 0 (wordDuration seg) with hd | hd
    · refine min_le_iff.mpr (Or.inl (le_max_iff.mpr (Or.inr ?_)))
      have := mul_le_mul_of_nonneg_right hij' hd
      linarith
    · refine min_le_iff.mpr (Or.inr (le_max_iff.mpr (Or.inl ?_)))
      have h2 : (i.1 : ℚ) ≤ (j.1 : ℚ) + 1 := by linarith
      have := mul_le_mul_of_nonpos_right h2 hd.le
      linarith
  · -- the union is the segment interval
    ext x
    simp only [Set.mem_iUnion, Set.mem_Ico, exists_prop]
    constructor
    · rintro ⟨c, hc, hx1, hx2⟩
      obtain ⟨i, rfl⟩ := List.mem_iff_get.mp hc
      rw [segmentCues_get] at hx1 hx2
      dsimp only at hx1 hx2
      have hd : 0 < wordDuration seg := by linarith
      constructor
      · have h3 : (0 : ℚ) ≤ (i.1 : ℚ) * wordDuration seg :=
          mul_nonneg (Nat.cast_nonneg _) hd.le
        linarith
      · have hi : (i.1 : ℚ) + 1 ≤ ((pySplit (pyStrip seg.text)).length : ℚ) := by
          exact_mod_cast Nat.succ_le_of_lt (lt_of_lt_of_eq i.2 hlen)
        have h3 : ((i.1 : ℚ) + 1) * wordDuration seg ≤
            ((pySplit (pyStrip seg.text)).length : ℚ) * wordDuration seg :=
          mul_le_mul_of_nonneg_right hi hd.le
        linarith
    · rintro ⟨hx1, hx2⟩
      have hes : 0 < seg.«end» - seg.start := by linarith
      have hd : 0 < wordDuration seg :=
        div_pos hes (by exact_mod_cast hn)
      have hk0 : 0 ≤ ⌊(x - seg.start) / wordDuration seg⌋ :=
        Int.floor_nonneg.mpr (div_nonneg (by linarith) hd.le)
      have hkn : ⌊(x - seg.start) / wordDuration seg⌋ <
          ((pySplit (pyStrip seg.text)).length : ℤ) := by
        rw [Int.floor_lt]
        push_cast
        rw [div_lt_iff₀ hd]
        linarith
      have hlt : (⌊(x - seg.start) / wordDuration seg⌋).toNat <
          (segmentCues idx seg).length := by
        rw [hlen]
        omega
      refine ⟨(segmentCues idx seg).get
        ⟨(⌊(x - seg.start) / wordDuration seg⌋).toNat, hlt⟩,
        List.get_mem _ _ _, ?_, ?_⟩
      · rw [segmentCues_get]
        dsimp only
        have hcast : (((⌊(x - seg.start) / wordDuration seg⌋).toNat : ℕ) : ℚ) =
            ((⌊(x - seg.start) / wordDuration seg⌋ : ℤ) : ℚ) := by
          exact_mod_cast congrArg Int.cast (Int.toNat_of_nonneg hk0)
        have hfl : ((⌊(x - seg.start) / wordDuration seg⌋ : ℤ) : ℚ) ≤
            (x - seg.start) / wordDuration seg := Int.floor_le _
        have h3 : ((⌊(x - seg.start) / wordDuration seg⌋ : ℤ) : ℚ) *
            wordDuration seg ≤ x - seg.start := by
          rw [← le_div_iff₀ hd]
          exact hfl
        simp only [hcast]
        linarith
      · rw [segmentCues_get]
        dsimp only
        have hcast : (((⌊(x - seg.start) / wordDuration seg⌋).toNat : ℕ) : ℚ) =
            ((⌊(x - seg.start) / wordDuration seg⌋ : ℤ) : ℚ) := by
          exact_mod_cast congrArg Int.cast (Int.toNat_of_nonneg hk0)
        have hfl : (x - seg.start) / wordDuration seg <
            ((⌊(x - seg.start) / wordDuration seg⌋ : ℤ) : ℚ) + 1 :=
          Int.lt_floor_add_one _
        have h3 : x - seg.start <
            (((⌊(x - seg.start) / wordDuration seg⌋ : ℤ) : ℚ) + 1) *
              wordDuration seg := by
          rw [← div_lt_iff₀ hd]
          exact hfl
        simp only [hcast]
        linarith
  · -- first cue starts at segment.start
    have h0 : 0 < (segmentCues idx seg).length := by
      rw [hlen]
      exact hn
    have hhead : (segmentCues idx seg).head? =
        some ((segmentCues idx seg).get ⟨0, h0⟩) := by
      rw [List.head?_eq_getElem?, List.getElem?_eq_getElem h0]
      rfl
    rw [hhead, Option.map_some', segmentCues_get]
    simp
  · -- last cue ends at segment.end
    have h0 : 0 < (segmentCues idx seg).length := by
      rw [hlen]
      exact hn
    have h1 : (segmentCues idx seg).length - 1 < (segmentCues idx seg).length := by
      omega
    have hlast : (segmentCues idx seg).getLast? =
        some ((segmentCues idx seg).get ⟨(segmentCues idx seg).length - 1, h1⟩) := by
      rw [List.getLast?_eq_getElem?, List.getElem?_eq_getElem h1]
      rfl
    rw [hlast, Option.map_some', segmentCues_get]
    dsimp only
    have hcast : ((((segmentCues idx seg).length - 1 : ℕ) : ℚ) + 1) =
        ((pySplit (pyStrip seg.text)).length : ℚ) := by
      rw [hlen, Nat.cast_sub hn]
      ring
    simp only [Option.some.injEq]
    rw [hcast]
    linarith
  · -- contiguity also holds of the double-rounded cues
    intro j hj
    rw [segmentCuesFloat_get, segmentCuesFloat_get]
    push_cast
    rfl

/-- Witness for C6: the `(0, 3, "a b c")` segment partitions `[0, 3)`. -/
theorem C6_witness :
    pySplit (pyStrip "a b c") ≠ [] ∧
      (⋃ c ∈ segmentCues 1 { start := 0, «end» := 3, text := "a b c" },
          Set.Ico c.start c.stop) =
        Set.Ico ({ start := 0, «end» := 3, text := "a b c" } : Segment).start
          ({ start := 0, «end» := 3, text := "a b c" } : Segment).«end» :=
  ⟨by decide, (C6_theorem 1 { start := 0, «end» := 3, text := "a b c" }
    (by decide)).2.2.1⟩

end SubGif
